import Mathlib

/-!
Verification of the ngcore Archive serialization core (archive.hpp).

The development shallowly embeds the parts of the code the statements below
need:

* the pointer / shared-pointer identity resolver of the base `Archive` class
  (operator& for `T*` and `std::shared_ptr<T>`), modelled over an abstract
  token stream (the virtual scalar operators are the abstraction boundary
  of the base class, so the resolver is codec independent);
* the buffered writer of `BinaryOutArchive` (Write / FlushBuffer) over bytes;
* the `std::map` and `std::vector` container rules of the base class;
* the length handling of `BinaryInArchive::operator&(std::string&)`;
* the text codec round trip for `double`.

C++ runtime facts that the templates consult (typeid comparisons, the class
registry with its upcaster and downcaster closures, default constructibility, the
number of scalar fields a DoArchive implementation transfers) are collected
in an explicit environment `Env`; the control flow of the embedded functions
follows the source line by line.
-/

namespace NgArchive

/-- One scalar written through the virtual operator& surface of `Archive`.
`int` covers the C++ `int`/`long` writes (sentinels and slot numbers),
`nat` the `size_t` writes (container sizes), `bool`, `str` the primitive
bool/string writes, and `dat` stands for one scalar field of an archived
object payload. -/
inductive Tok where
  | int (v : Int)
  | nat (v : Nat)
  | bool (v : Bool)
  | str (v : String)
  | dat (v : Nat)
deriving DecidableEq, Repr

/-- A live C++ object reachable from a pointer being archived: its address
(`ptr.get()`), the demangled name of its dynamic type (`typeid(*ptr)`), and
the scalar fields its DoArchive implementation writes. -/
structure Obj where
  addr : Nat
  dynType : String
  payload : List Tok
deriving DecidableEq, Repr

/-- Ambient C++ facts consulted by the archive templates: the set of class
names registered through `RegisterClassForArchive` (IsRegistered), the
registered `downcaster`/`upcaster` closures (`down dyn ty a` is
`GetArchiveRegister(dyn).downcaster(typeid(ty), a)`, `up` the upcaster),
the number of scalar fields a registered DoArchive transfers, and default
constructibility of a static type (`std::is_constructible<T>::value`). -/
structure Env where
  registry : List String
  down : String → String → Nat → Nat
  up : String → String → Nat → Nat
  payloadLen : String → Nat
  constructible : String → Bool

/-- Output-session state of the base `Archive` class: the two slot counters,
the two identity maps (`std::map<void*, int>`, kept as association lists with
unique keys), and the tokens written so far. -/
structure WState where
  shared_ptr_count : Nat
  ptr_count : Nat
  shared_ptr2nr : List (Nat × Nat)
  ptr2nr : List (Nat × Nat)
  out : List Tok
deriving DecidableEq, Repr

def initW : WState := ⟨0, 0, [], [], []⟩

/-- `std::map<void*, int>::find` on the association-list model. -/
def lookupNr : List (Nat × Nat) → Nat → Option Nat
  | [], _ => none
  | (a, v) :: t, k => if a = k then some v else lookupNr t k

def emit (st : WState) (ts : List Tok) : WState := { st with out := st.out ++ ts }

/-- Message of the `Exception` thrown at archive.hpp lines 314, 434, 466. -/
def notRegMsg (name : String) : String :=
  "Archive error: Polymorphic type " ++ name ++ " not registered for archive"

/-- Message of the `Exception` thrown at archive.hpp line 457. -/
def noCtorMsg (name : String) : String :=
  "Archive error: Class " ++ name ++ " does not provide a default constructor!"

/-- Message of the `Exception` thrown by `detail::constructIfPossible` (line 40). -/
def notCtorMsg (name : String) : String :=
  name ++ " is not default constructible!"

/-- Continuation of `writePtr` from `ptr2nr.find(reg_ptr)` on (lines 443-483):
`reg` is the canonical (possibly downcast) address. -/
def writePtrFound (env : Env) (ty : String) (o : Obj) (reg : Nat) (st : WState) :
    Except (String × WState) WState :=
  match lookupNr st.ptr2nr reg with
  | none =>
    let st1 := { st with ptr2nr := st.ptr2nr ++ [(reg, st.ptr_count)],
                         ptr_count := st.ptr_count + 1 }
    if o.dynType = ty then
      if env.constructible ty then
        .ok (emit st1 ([.int (-1)] ++ o.payload))
      else .error (noCtorMsg o.dynType, st1)
    else if o.dynType ∈ env.registry then
      .ok (emit st1 ([.int (-3), .str o.dynType] ++ o.payload))
    else .error (notRegMsg o.dynType, st1)
  | some slot =>
    .ok (emit st [.int (Int.ofNat slot), .bool (!(reg == o.addr)), .str o.dynType])

/-- `Archive::operator&(T*&)`, output direction (archive.hpp lines 417-483).
`ty` is the demangled static type name of `T`.  A thrown `Exception` is
modelled as `.error (message, state at the throw point)`. -/
def writePtr (env : Env) (ty : String) (p : Option Obj) (st : WState) :
    Except (String × WState) WState :=
  match p with
  | none => .ok (emit st [.int (-2)])
  | some o =>
    if ty = o.dynType then
      writePtrFound env ty o o.addr st
    else if o.dynType ∈ env.registry then
      writePtrFound env ty o (env.down o.dynType ty o.addr) st
    else .error (notRegMsg o.dynType, st)

/-- Continuation of `writeSharedPtr` from `shared_ptr2nr.find(reg_ptr)` on
(lines 325-344): `reg` is the canonical address, `needed` the
`neededDowncast` flag. -/
def writeSharedFound (env : Env) (ty : String) (o : Obj) (reg : Nat) (needed : Bool)
    (st : WState) : Except (String × WState) WState :=
  match lookupNr st.shared_ptr2nr reg with
  | none =>
    match writePtr env ty (some o) (emit st [.int (-1), .bool needed]) with
    | .error e => .error e
    | .ok st2 =>
      let st3 := if needed then emit st2 [.str o.dynType] else st2
      .ok { st3 with
              shared_ptr2nr := st3.shared_ptr2nr ++ [(reg, st3.shared_ptr_count)],
              shared_ptr_count := st3.shared_ptr_count + 1 }
  | some slot =>
    .ok (emit st ([.int (Int.ofNat slot), .bool needed]
          ++ if needed then [.str o.dynType] else []))

/-- `Archive::operator&(std::shared_ptr<T>&)`, output direction (archive.hpp
lines 296-345).  The first-occurrence branch stores the inner raw pointer
through `writePtr` (line 333 archives `ptr.get()` as a `T*`). -/
def writeSharedPtr (env : Env) (ty : String) (p : Option Obj) (st : WState) :
    Except (String × WState) WState :=
  match p with
  | none => .ok (emit st [.int (-2)])
  | some o =>
    if ty = o.dynType then
      writeSharedFound env ty o o.addr false st
    else if o.dynType ∈ env.registry then
      writeSharedFound env ty o (env.down o.dynType ty o.addr)
        (!(env.down o.dynType ty o.addr == o.addr)) st
    else .error (notRegMsg o.dynType, st)

/-- A reconstructed `std::shared_ptr`: the identity of the control block it
shares ownership with (`owner`) and the address it points to (`addr`).
Two handles are equal in the C++ sense iff both components agree. -/
structure SPtr where
  owner : Nat
  addr : Nat
deriving DecidableEq, Repr

/-- Input-session state of the base `Archive` class: remaining input tokens,
the two inverse tables (`nr2shared_ptr`, `nr2ptr`), and an allocation
counter handing out fresh addresses for objects created during reading. -/
structure RState where
  inp : List Tok
  nr2shared_ptr : List (Option SPtr)
  nr2ptr : List Nat
  alloc : Nat
deriving DecidableEq, Repr

def initR (ts : List Tok) : RState := ⟨ts, [], [], 0⟩

def readTokInt (st : RState) : Except (String × RState) (Int × RState) :=
  match st.inp with
  | .int v :: rest => .ok (v, { st with inp := rest })
  | _ => .error ("stream error: expected int", st)

def readTokBool (st : RState) : Except (String × RState) (Bool × RState) :=
  match st.inp with
  | .bool v :: rest => .ok (v, { st with inp := rest })
  | _ => .error ("stream error: expected bool", st)

def readTokStr (st : RState) : Except (String × RState) (String × RState) :=
  match st.inp with
  | .str v :: rest => .ok (v, { st with inp := rest })
  | _ => .error ("stream error: expected string", st)

/-- Reading `(*this) & *p`: the DoArchive implementation of the object's
dynamic class consumes its fixed sequence of scalar fields; only their
count matters here. -/
def dropToks (st : RState) (n : Nat) : Except (String × RState) RState :=
  if n ≤ st.inp.length then .ok { st with inp := st.inp.drop n }
  else .error ("stream error: truncated payload", st)

/-- `Archive::operator&(T*&)`, input direction (archive.hpp lines 485-537).
Returns the restored pointer value (`none` for `nullptr`).  Out-of-range
vector indexing (undefined behaviour in the source) is totalized with a
default. -/
def readPtr (env : Env) (ty : String) (st : RState) :
    Except (String × RState) (Option Nat × RState) :=
  match readTokInt st with
  | .error e => .error e
  | .ok (nr, st1) =>
    if nr = -2 then .ok (none, st1)
    else if nr = -1 then
      if env.constructible ty then
        let p := st1.alloc
        let st2 := { st1 with alloc := st1.alloc + 1, nr2ptr := st1.nr2ptr ++ [p] }
        match dropToks st2 (env.payloadLen ty) with
        | .error e => .error e
        | .ok st3 => .ok (some p, st3)
      else .error (notCtorMsg ty, st1)
    else if nr = -3 then
      match readTokStr st1 with
      | .error e => .error e
      | .ok (name, st2) =>
        if name ∈ env.registry then
          let p := st2.alloc
          let st3 := { st2 with alloc := st2.alloc + 1,
                                nr2ptr := st2.nr2ptr ++ [env.down name ty p] }
          match dropToks st3 (env.payloadLen name) with
          | .error e => .error e
          | .ok st4 => .ok (some p, st4)
        else .error (notRegMsg name, st2)
    else
      match readTokBool st1 with
      | .error e => .error e
      | .ok (downcasted, st2) =>
        match readTokStr st2 with
        | .error e => .error e
        | .ok (name, st3) =>
          let base := st3.nr2ptr.getD nr.toNat 0
          if downcasted then
            if name ∈ env.registry then .ok (some (env.up name ty base), st3)
            else .error (notRegMsg name, st3)
          else .ok (some base, st3)

/-- `Archive::operator&(std::shared_ptr<T>&)`, input direction (archive.hpp
lines 346-411).  Returns the restored handle (`none` for `nullptr`). -/
def readSharedPtr (env : Env) (ty : String) (st : RState) :
    Except (String × RState) (Option SPtr × RState) :=
  match readTokInt st with
  | .error e => .error e
  | .ok (nr, st1) =>
    if nr = -2 then .ok (none, st1)
    else if nr = -1 then
      match readTokBool st1 with
      | .error e => .error e
      | .ok (needed, st2) =>
        match readPtr env ty st2 with
        | .error e => .error e
        | .ok (popt, st3) =>
          let sp : Option SPtr := popt.map (fun a => ⟨a, a⟩)
          if needed then
            match readTokStr st3 with
            | .error e => .error e
            | .ok (name, st4) =>
              if name ∈ env.registry then
                let entry : Option SPtr := popt.map (fun a => ⟨a, env.down name ty a⟩)
                .ok (sp, { st4 with nr2shared_ptr := st4.nr2shared_ptr ++ [entry] })
              else .error (notRegMsg name, st4)
          else .ok (sp, { st3 with nr2shared_ptr := st3.nr2shared_ptr ++ [sp] })
    else
      let other := st1.nr2shared_ptr.getD nr.toNat none
      match readTokBool st1 with
      | .error e => .error e
      | .ok (needed, st2) =>
        if needed then
          match readTokStr st2 with
          | .error e => .error e
          | .ok (name, st3) =>
            if name ∈ env.registry then
              .ok (other.map (fun sp => ⟨sp.owner, env.up name ty sp.addr⟩), st3)
            else .error (notRegMsg name, st3)
        else .ok (other, st2)

/-! ## Binary output codec: the buffered writer (archive.hpp lines 642-720) -/

def BUFFERSIZE : Nat := 1024

/-- State of a `BinaryOutArchive`: the filled prefix of the 1024-byte buffer
(`buffer.length` is the index `ptr`) and the bytes already written to the
backing `ostream`. -/
structure BOState where
  buffer : List Nat
  sink : List Nat
deriving DecidableEq, Repr

def initBO : BOState := ⟨[], []⟩

/-- `BinaryOutArchive::Write<T>` (lines 706-719), with `x` the `sizeof(T)`
bytes of the scalar.  For `x.length ≤ BUFFERSIZE` the natural-number
subtraction in the guard agrees with the `size_t` subtraction
`BUFFERSIZE - sizeof(T)` of the source; every scalar written by the codec
has `sizeof(T) ≤ 8`. -/
def bwrite (st : BOState) (x : List Nat) : BOState :=
  if BUFFERSIZE - x.length < st.buffer.length then
    ⟨x, st.sink ++ st.buffer⟩
  else ⟨st.buffer ++ x, st.sink⟩

/-- `BinaryOutArchive::FlushBuffer` (lines 696-703); also run by the
destructor (line 658). -/
def flushBuffer (st : BOState) : BOState :=
  if 0 < st.buffer.length then ⟨[], st.sink ++ st.buffer⟩ else st

def bwriteAll (ws : List (List Nat)) (st : BOState) : BOState :=
  ws.foldl bwrite st

/-- The index one past the last buffer cell stored into by this `Write`
call: the store is `buffer[start .. start + x.length)` with `start = 0`
after the overflow flush and `start = ptr` otherwise. -/
def bwriteStoreEnd (st : BOState) (len : Nat) : Nat :=
  if BUFFERSIZE - len < st.buffer.length then len else st.buffer.length + len

/-- Modelled from the spec: the unbuffered writer the buffered one must be
observably equivalent to delivers the concatenation of the fixed-width
scalar encodings in write order. -/
def unbufferedSink (ws : List (List Nat)) : List Nat :=
  ws.flatten

/-! ## Binary codec scalars -/

/-- Little-endian byte image of a 64-bit scalar, as stored by
`*reinterpret_cast<T*>(&buffer[ptr]) = x` for an 8-byte `T`. -/
def encode8 (bits : Nat) : List Nat :=
  (List.range 8).map (fun k => bits / 2 ^ (8 * k) % 256)

/-- Value of the first 8 bytes of a little-endian byte stream, as loaded by
`BinaryInArchive::Read<T>` for an 8-byte `T`. -/
def decode8 (bs : List Nat) : Nat :=
  (bs.take 8).foldr (fun b acc => b + 256 * acc) 0

/-- `BinaryInArchive::operator&(double&)` (line 735): pull 8 bytes from the
stream. -/
def binReadDouble (bs : List Nat) : Nat × List Nat :=
  (decode8 bs, bs.drop 8)

/-- Faults surfaced while reading the binary stream.  `streamShort n`
records that the read side asked the backing stream / string machinery for
`n` more bytes than are available; `decoding` would be an archive-raised
decoding fault (the string reader of the source never raises one: it
performs no length validation). -/
inductive BinFault where
  | streamShort (requested : Nat)
  | decoding (msg : String)
deriving DecidableEq, Repr

/-- Two`s-complement decode of 4 little-endian bytes as the C++ `int` the
length prefix is read into. -/
def decodeInt4 (bs : List Nat) : Option (Int × List Nat) :=
  match bs with
  | b0 :: b1 :: b2 :: b3 :: rest =>
    let u : Nat := b0 + 256 * b1 + 256 ^ 2 * b2 + 256 ^ 3 * b3
    some (if u < 2 ^ 31 then (u : Int) else (u : Int) - 2 ^ 32, rest)
  | _ => none

/-- `BinaryInArchive::operator&(std::string&)` (lines 749-757): read the
`int` length prefix, call `str.resize(len)` - the signed length converted
to `size_t`, i.e. reduced mod 2^64 - and then pull that many bytes from the
stream.  The conversion and the resulting over-demand are modelled
faithfully; no validation of the decoded length occurs. -/
def binReadString (bs : List Nat) : Except BinFault (List Nat × List Nat) :=
  match decodeInt4 bs with
  | none => .error (.streamShort 4)
  | some (len, rest) =>
    if len = 0 then .ok ([], rest)
    else if rest.length < (len % (2 ^ 64 : Int)).toNat then
      .error (.streamShort ((len % (2 ^ 64 : Int)).toNat))
    else .ok (rest.take ((len % (2 ^ 64 : Int)).toNat),
              rest.drop ((len % (2 ^ 64 : Int)).toNat))

/-- Whether a binary string read outcome is an archive-raised decoding
fault. -/
def isDecodingFault : Except BinFault (List Nat × List Nat) → Bool
  | .error (.decoding _) => true
  | _ => false

/-! ## Text codec: double round trip (archive.hpp lines 799-800, 850-851) -/

/-- `TextOutArchive::operator&(double&)` writes with `*stream << d` under
default stream state, i.e. printf %g with precision 6: the value is
rendered with at most six significant decimal digits (rounding ties to
even), and `TextInArchive::operator&(double&)` re-parses that rendering
with `*stream >> d`.  For a double holding the integer `n` (every `n`
below 2^53 is exactly representable, and so is the re-parsed six-digit
rounding) the composite write-then-read therefore yields `n` rounded to
six significant decimal digits.  `sigDigits` is the number of significant
decimal digits of the integer value. -/
def sigDigits (n : Nat) : Nat := if n = 0 then 1 else Nat.log 10 n + 1

/-- The text-codec write-then-read composite on an integer-valued double:
identity when six significant digits suffice, otherwise rounding to six
significant digits (ties to even), per the default %g formatting described
at `sigDigits`. -/
def textWriteReadDouble (n : Nat) : Nat :=
  if sigDigits n ≤ 6 then n
  else
    (if 10 ^ (sigDigits n - 6) < 2 * (n % 10 ^ (sigDigits n - 6))
        ∨ (2 * (n % 10 ^ (sigDigits n - 6)) = 10 ^ (sigDigits n - 6)
            ∧ n / 10 ^ (sigDigits n - 6) % 2 = 1)
      then n / 10 ^ (sigDigits n - 6) + 1
      else n / 10 ^ (sigDigits n - 6)) * 10 ^ (sigDigits n - 6)

/-! ## Containers: std::map and std::vector (archive.hpp lines 196-257) -/

/-- `Archive::operator&(std::map<T1,T2>&)`, output direction (lines 238-243):
the size as a `size_t`, then the (key, value) pairs in iteration order.
The model instantiates `T1 = T2 = int`. -/
def mapWrite (m : List (Int × Int)) (out : List Tok) : List Tok :=
  out ++ [.nat m.length] ++ (m.map (fun p => [.int p.1, .int p.2])).flatten

/-- `map[key] = val` on the sorted association-list model of `std::map`:
insert in key order, overwriting an existing binding (last wins). -/
def mapInsert : List (Int × Int) → Int → Int → List (Int × Int)
  | [], k, v => [(k, v)]
  | (a, b) :: t, k, v =>
    if k < a then (k, v) :: (a, b) :: t
    else if k = a then (k, v) :: t
    else (a, b) :: mapInsert t k v

/-- The read loop of lines 249-254: `size` many (key, value) reads, each
stored with `map[key] = val` into the destination. -/
def mapReadPairs : List (Int × Int) → Nat → List Tok →
    Option (List (Int × Int) × List Tok)
  | dst, 0, toks => some (dst, toks)
  | dst, n + 1, .int k :: .int v :: toks => mapReadPairs (mapInsert dst k v) n toks
  | _, _ + 1, _ => none

/-- `Archive::operator&(std::map<T1,T2>&)`, input direction (lines 244-255). -/
def mapRead (dst : List (Int × Int)) (toks : List Tok) :
    Option (List (Int × Int) × List Tok) :=
  match toks with
  | .nat sz :: rest => mapReadPairs dst sz rest
  | _ => none

/-- Building a `std::map` by a sequence of `m[k] = v` insertions. -/
def mapBuild (dst : List (Int × Int)) (l : List (Int × Int)) : List (Int × Int) :=
  l.foldl (fun d p => mapInsert d p.1 p.2) dst

/-- `Archive::Do(int*, n)` on the output side (lines 260-268): the loop
archives exactly the elements at indices `j < n` of the array it is handed.
Out-of-range access (never performed: the call sites pass `n = v.size()`)
is totalized with a default. -/
def doArrWrite (data : List Int) (n : Nat) (out : List Tok) : List Tok :=
  out ++ (List.range n).map (fun j => Tok.int (data.getD j 0))

/-- `Archive::operator&(std::vector<T>&)`, output direction (lines 196-207):
the size as a `size_t`, then `Do(&v[0], size)`. -/
def vecWrite (v : List Int) (out : List Tok) : List Tok :=
  doArrWrite v v.length (out ++ [.nat v.length])

/-- `Archive::Do(int*, n)` on the input side: read `n` scalars into the
indices `j < n` of the freshly resized destination. -/
def doArrRead : Nat → List Tok → Option (List Int × List Tok)
  | 0, toks => some ([], toks)
  | n + 1, .int x :: toks => (doArrRead n toks).map (fun r => (x :: r.1, r.2))
  | _ + 1, _ => none

/-- `Archive::operator&(std::vector<T>&)`, input direction: read the size,
resize the destination to it, fill exactly that many elements. -/
def vecRead (toks : List Tok) : Option (List Int × List Tok) :=
  match toks with
  | .nat sz :: rest => doArrRead sz rest
  | _ => none

/-! ## Concrete environments used by witnesses and counterexamples -/

/-- Registry with one class "D" whose casts are the identity (single
inheritance, no pointer adjustment), one payload scalar, everything
default constructible. -/
def envId : Env := ⟨["D"], fun _ _ a => a, fun _ _ a => a, fun _ => 1, fun _ => true⟩

/-- Registry with one class "D" whose downcast shifts the address by one
(multiple/virtual inheritance pointer adjustment) and whose upcast shifts
it back. -/
def envShift : Env :=
  ⟨["D"], fun _ _ a => a + 1, fun _ _ a => a - 1, fun _ => 1, fun _ => true⟩

/-- Empty registry. -/
def envEmpty : Env := ⟨[], fun _ _ a => a, fun _ _ a => a, fun _ => 0, fun _ => true⟩

/-! ## C5: null raw pointer round trip -/

/-- C5: writing a null raw pointer writes exactly the sentinel -2 (distinct
from the NEW sentinel -1, the registered-type sentinel -3, and every
nonnegative slot number) and leaves the identity tables and slot counters
unchanged; reading the sentinel restores a null pointer consuming exactly
the sentinel and leaving the inverse tables unchanged. -/
theorem null_raw_pointer_round_trip (env : Env) (ty : String) (st : WState)
    (inp2 : List Tok) (t2 : List (Option SPtr)) (t3 : List Nat) (a : Nat) :
    writePtr env ty none st = .ok { st with out := st.out ++ [.int (-2)] } ∧
    ((-2 : Int) ≠ -1 ∧ (-2 : Int) ≠ -3 ∧ ∀ slot : Nat, (slot : Int) ≠ -2) ∧
    readPtr env ty ⟨.int (-2) :: inp2, t2, t3, a⟩ = .ok (none, ⟨inp2, t2, t3, a⟩) := by
  refine ⟨rfl, ⟨by decide, by decide, fun slot => by omega⟩, ?_⟩
  simp [readPtr, readTokInt]

/-! ## C4: unregistered polymorphic type is a fault with no partial record -/

/-- C4: archiving a non-null pointer or shared handle whose dynamic type
differs from its static type and is not registered throws the registration
`Exception` naming the type, with the session state at the throw point
exactly the entry state: no token written, no identity-table entry, no
slot-counter change. -/
theorem unregistered_type_fault (env : Env) (ty : String) (o : Obj) (st : WState)
    (hne : ty ≠ o.dynType) (hnr : o.dynType ∉ env.registry) :
    writePtr env ty (some o) st = .error (notRegMsg o.dynType, st) ∧
    writeSharedPtr env ty (some o) st = .error (notRegMsg o.dynType, st) := by
  constructor <;> simp [writePtr, writeSharedPtr, hne, hnr]

theorem unregistered_type_fault_witness :
    writePtr envEmpty "B" (some ⟨1, "X", []⟩) initW = .error (notRegMsg "X", initW) ∧
    writeSharedPtr envEmpty "B" (some ⟨1, "X", []⟩) initW
      = .error (notRegMsg "X", initW) :=
  unregistered_type_fault envEmpty "B" ⟨1, "X", []⟩ initW (by decide) (by decide)

/-! ## C2: record written for an already-seen raw pointer -/

/-- C2 counterexample: archiving the same raw pointer twice (static type =
dynamic type "A", so the was-downcast flag is false), the second record is
slot 0, flag false, and then the type name "A" - the name is written even
though the flag is false, contradicting the claim that the name is written
only when the flag is true. -/
theorem raw_seen_name_always_written :
    ((writePtr envId "A" (some ⟨5, "A", []⟩) initW).bind
        (writePtr envId "A" (some ⟨5, "A", []⟩))).toOption.map WState.out
      = some [.int (-1), .int 0, .bool false, .str "A"] ∧
    [Tok.int (-1), .int 0, .bool false, .str "A"] ≠ [Tok.int (-1), .int 0, .bool false] := by
  exact ⟨rfl, by decide⟩

/-- The canonical address used as identity-table key (archive.hpp lines
428-437): the address itself when static and dynamic types agree, else the
registered downcast of it. -/
def canonW (env : Env) (ty : String) (o : Obj) : Nat :=
  if ty = o.dynType then o.addr else env.down o.dynType ty o.addr

/-- C2 amended: for a raw pointer whose canonical address was already seen,
the record written is the slot number, the was-downcast flag, and the
dynamic type name written unconditionally - regardless of the flag. -/
theorem raw_seen_record_shape (env : Env) (ty : String) (o : Obj) (st : WState)
    (slot : Nat)
    (hreg : ty ≠ o.dynType → o.dynType ∈ env.registry)
    (hfound : lookupNr st.ptr2nr (canonW env ty o) = some slot) :
    writePtr env ty (some o) st =
      .ok (emit st [.int (Int.ofNat slot),
                    .bool (!(canonW env ty o == o.addr)), .str o.dynType]) := by
  by_cases h : ty = o.dynType
  · simp only [canonW, if_pos h] at hfound ⊢
    simp [writePtr, writePtrFound, h, hfound]
  · simp only [canonW, if_neg h] at hfound ⊢
    simp [writePtr, writePtrFound, h, hreg h, hfound]

theorem raw_seen_record_shape_witness :
    writePtr envId "A" (some ⟨5, "A", []⟩) ⟨0, 0, [], [(5, 3)], []⟩ =
      .ok (emit ⟨0, 0, [], [(5, 3)], []⟩
            [.int (Int.ofNat 3), .bool (!(canonW envId "A" ⟨5, "A", []⟩ == 5)),
             .str "A"]) :=
  raw_seen_record_shape envId "A" ⟨5, "A", []⟩ ⟨0, 0, [], [(5, 3)], []⟩ 3
    (by decide) (by decide)

/-! ## C8 and C9: the buffered binary writer -/

lemma bwrite_buffer_le (st : BOState) (x : List Nat) (hx : x.length ≤ BUFFERSIZE)
    (hb : st.buffer.length ≤ BUFFERSIZE) :
    (bwrite st x).buffer.length ≤ BUFFERSIZE := by
  unfold bwrite
  split
  · simpa using hx
  · next hg => simp only [List.length_append]; unfold BUFFERSIZE at *; omega

lemma bwrite_content (st : BOState) (x : List Nat) :
    (bwrite st x).sink ++ (bwrite st x).buffer = st.sink ++ st.buffer ++ x := by
  unfold bwrite
  split <;> simp

lemma bwriteAll_buffer_le (ws : List (List Nat)) (st : BOState)
    (h : ∀ w ∈ ws, w.length ≤ BUFFERSIZE) (hb : st.buffer.length ≤ BUFFERSIZE) :
    (bwriteAll ws st).buffer.length ≤ BUFFERSIZE := by
  induction ws generalizing st with
  | nil => simpa [bwriteAll] using hb
  | cons w ws ih =>
    simp only [bwriteAll, List.foldl_cons] at *
    exact ih (bwrite st w) (fun u hu => h u (List.mem_cons_of_mem _ hu))
      (bwrite_buffer_le st w (h w (List.mem_cons_self _ _)) hb)

lemma bwriteAll_flush_sink (ws : List (List Nat)) (st : BOState) :
    (flushBuffer (bwriteAll ws st)).sink = st.sink ++ st.buffer ++ ws.flatten ∧
    (flushBuffer (bwriteAll ws st)).buffer = [] := by
  induction ws generalizing st with
  | nil =>
    simp only [bwriteAll, List.foldl_nil, List.flatten_nil, List.append_nil]
    unfold flushBuffer
    split
    · simp
    · next hg =>
      have hbuf : st.buffer = [] := List.eq_nil_of_length_eq_zero (by omega)
      simp [hbuf]
  | cons w ws ih =>
    simp only [bwriteAll, List.foldl_cons, List.flatten_cons] at *
    refine ⟨?_, (ih (bwrite st w)).2⟩
    rw [(ih (bwrite st w)).1, bwrite_content st w]
    simp

/-- C8: after the final flush, the byte sequence delivered to the backing
sink by the buffered writer equals the concatenation of the scalar
encodings in write order - the buffered writer is observably equivalent to
the unbuffered writer described by the spec. -/
theorem buffered_writer_refines_unbuffered (ws : List (List Nat))
    (h : ∀ w ∈ ws, w.length ≤ BUFFERSIZE) :
    (flushBuffer (bwriteAll ws initBO)).sink = unbufferedSink ws ∧
    (flushBuffer (bwriteAll ws initBO)).buffer = [] := by
  have := bwriteAll_flush_sink ws initBO
  simpa [initBO, unbufferedSink] using this

theorem buffered_writer_refines_unbuffered_witness :
    (flushBuffer (bwriteAll [[1, 2, 3], [4, 5]] initBO)).sink
      = unbufferedSink [[1, 2, 3], [4, 5]] ∧
    (flushBuffer (bwriteAll [[1, 2, 3], [4, 5]] initBO)).buffer = [] :=
  buffered_writer_refines_unbuffered [[1, 2, 3], [4, 5]] (by decide)

/-- C9: along any sequence of scalar writes whose scalars fit the buffer,
the buffer index `ptr` stays within `[0, BUFFERSIZE]` before and after
every `Write` call, and every store performed by `Write` ends at or before
the end of the 1024-byte buffer. -/
theorem binary_write_buffer_safety (ws pfx : List (List Nat)) (w : List Nat)
    (rest : List (List Nat))
    (h : ∀ u ∈ ws, u.length ≤ BUFFERSIZE) (hsplit : ws = pfx ++ w :: rest) :
    (bwriteAll pfx initBO).buffer.length ≤ BUFFERSIZE ∧
    bwriteStoreEnd (bwriteAll pfx initBO) w.length ≤ BUFFERSIZE ∧
    (bwrite (bwriteAll pfx initBO) w).buffer.length ≤ BUFFERSIZE := by
  subst hsplit
  have hpfx : ∀ u ∈ pfx, u.length ≤ BUFFERSIZE := fun u hu =>
    h u (List.mem_append_left _ hu)
  have hw : w.length ≤ BUFFERSIZE := h w (by simp)
  have h1 : (bwriteAll pfx initBO).buffer.length ≤ BUFFERSIZE :=
    bwriteAll_buffer_le pfx initBO hpfx (by simp [initBO])
  refine ⟨h1, ?_, bwrite_buffer_le _ _ hw h1⟩
  unfold bwriteStoreEnd
  split
  · exact hw
  · next hg => unfold BUFFERSIZE at *; omega

theorem binary_write_buffer_safety_witness :
    (bwriteAll [[1]] initBO).buffer.length ≤ BUFFERSIZE ∧
    bwriteStoreEnd (bwriteAll [[1]] initBO) [2, 3].length ≤ BUFFERSIZE ∧
    (bwrite (bwriteAll [[1]] initBO) [2, 3]).buffer.length ≤ BUFFERSIZE :=
  binary_write_buffer_safety [[1], [2, 3]] [[1]] [2, 3] [] (by decide) rfl

/-! ## C10: vector archiving touches only indices below the length -/

lemma doArrRead_of_write (v : List Int) (rest : List Tok) :
    doArrRead v.length
        ((List.range v.length).map (fun j => Tok.int (v.getD j 0)) ++ rest)
      = some (v, rest) := by
  induction v with
  | nil => simp [doArrRead]
  | cons a t ih =>
    rw [List.length_cons, List.range_succ_eq_map]
    simp only [List.map_cons, List.map_map, List.getD_cons_zero, List.cons_append]
    have hcomp :
        ((fun j => Tok.int ((a :: t).getD j 0)) ∘ Nat.succ)
          = fun j => Tok.int (t.getD j 0) := by
      funext j
      simp [List.getD]
    rw [hcomp]
    simp only [doArrRead]
    rw [ih]
    rfl

/-- C10: the element loop of `Do` depends only on the array entries at
indices strictly below the count it is given (so the empty-vector call,
which passes the base address with count 0, performs no element access);
writing an empty vector emits exactly the zero length; reading a zero
length restores the empty vector consuming nothing further; the general
write/read round trip restores the vector; and reading fills exactly
length-many elements. -/
theorem vector_bounds_and_empty_round_trip :
    (∀ (d₁ d₂ : List Int) (n : Nat) (out : List Tok),
        (∀ j < n, d₁.getD j 0 = d₂.getD j 0) →
        doArrWrite d₁ n out = doArrWrite d₂ n out) ∧
    (∀ out, vecWrite [] out = out ++ [.nat 0]) ∧
    (∀ rest, vecRead (.nat 0 :: rest) = some ([], rest)) ∧
    (∀ v, vecRead (vecWrite v []) = some (v, [])) ∧
    (∀ n toks r, doArrRead n toks = some r → r.1.length = n) := by
  refine ⟨?_, ?_, ?_, ?_, ?_⟩
  · intro d₁ d₂ n out h
    unfold doArrWrite
    congr 1
    apply List.map_congr_left
    intro j hj
    rw [h j (List.mem_range.mp hj)]
  · intro out
    simp [vecWrite, doArrWrite]
  · intro rest
    simp [vecRead, doArrRead]
  · intro v
    have h := doArrRead_of_write v []
    rw [List.append_nil] at h
    unfold vecWrite doArrWrite vecRead
    simp only [List.nil_append, List.cons_append, List.singleton_append]
    exact h
  · intro n
    induction n with
    | zero =>
      intro toks r h
      simp only [doArrRead, Option.some.injEq] at h
      rw [← h]
      rfl
    | succ m ih =>
      intro toks r h
      match toks, h with
      | .int x :: toks, h =>
        simp only [doArrRead, Option.map_eq_some'] at h
        obtain ⟨r', hr', hx⟩ := h
        subst hx
        simp [ih toks r' hr']

theorem vector_bounds_and_empty_round_trip_witness :
    doArrWrite [1, 2, 3] 2 [] = doArrWrite [1, 2, 9] 2 [] ∧
    vecWrite [] [] = [.nat 0] ∧
    vecRead [.nat 0, .str "x"] = some ([], [.str "x"]) ∧
    vecRead (vecWrite [4, 5] []) = some ([4, 5], []) ∧
    ([6], [Tok.nat 9]).1.length = 1 :=
  ⟨vector_bounds_and_empty_round_trip.1 [1, 2, 3] [1, 2, 9] 2 [] (by decide),
   by simpa using vector_bounds_and_empty_round_trip.2.1 [],
   vector_bounds_and_empty_round_trip.2.2.1 [.str "x"],
   vector_bounds_and_empty_round_trip.2.2.2.1 [4, 5],
   vector_bounds_and_empty_round_trip.2.2.2.2 1 [.int 6, .nat 9] ([6], [.nat 9]) rfl⟩

/-! ## C3: primitive round trips - binary bit-for-bit, text doubles only to
six significant digits -/

lemma decode8_encode8 (bits : Nat) (hb : bits < 2 ^ 64) :
    decode8 (encode8 bits) = bits := by
  have hr : List.range 8 = [0, 1, 2, 3, 4, 5, 6, 7] := rfl
  simp only [decode8, encode8, hr, List.map_cons, List.map_nil, List.take,
    List.foldr_cons, List.foldr_nil]
  norm_num
  omega

/-- C3 counterexample: the text codec does not round-trip every double.
The integer 1048577 is exactly representable as a double, but the default
ostream formatting renders it with six significant digits, so the mirror
read returns 1048580, not 1048577. -/
theorem text_double_not_exact :
    textWriteReadDouble 1048577 = 1048580 ∧ (1048580 : Nat) ≠ 1048577 := by
  have hlog : Nat.log 10 1048577 = 6 :=
    Nat.log_eq_of_pow_le_of_lt_pow (by norm_num) (by norm_num)
  have hsd : sigDigits 1048577 = 7 := by
    rw [sigDigits, if_neg (by norm_num), hlog]
  constructor
  · rw [textWriteReadDouble, hsd]
    norm_num
  · decide

/-- C3 amended: the binary codec round-trips every double bit-for-bit
through the buffered writer and the fixed-width read; the text codec
round-trips a double exactly whenever six significant decimal digits
represent it exactly (here: every integer value below 10^6). -/
theorem primitive_round_trip_amended (bits : Nat) (hb : bits < 2 ^ 64)
    (n : Nat) (hn : n < 10 ^ 6) :
    binReadDouble ((flushBuffer (bwrite initBO (encode8 bits))).sink) = (bits, []) ∧
    textWriteReadDouble n = n := by
  constructor
  · have hlen : (encode8 bits).length = 8 := by simp [encode8]
    have hw : bwrite initBO (encode8 bits) = ⟨encode8 bits, []⟩ := by
      unfold bwrite
      rw [if_neg]
      · simp [initBO]
      · simp [initBO, BUFFERSIZE]
    have hf : flushBuffer (⟨encode8 bits, []⟩ : BOState) = ⟨[], encode8 bits⟩ := by
      unfold flushBuffer
      rw [if_pos (by simp [hlen])]
      simp
    rw [hw, hf]
    show binReadDouble (encode8 bits) = (bits, [])
    rw [binReadDouble, decode8_encode8 bits hb,
        List.drop_eq_nil_of_le (le_of_eq hlen)]
  · have hsd : sigDigits n ≤ 6 := by
      rcases Nat.eq_zero_or_pos n with hz | hpos
      · simp [sigDigits, hz]
      · have hlog : Nat.log 10 n < 6 := Nat.log_lt_of_lt_pow (by omega) hn
        rw [sigDigits, if_neg (by omega)]
        omega
    rw [textWriteReadDouble, if_pos hsd]

theorem primitive_round_trip_amended_witness :
    binReadDouble ((flushBuffer (bwrite initBO (encode8 12345678901234567890))).sink)
      = (12345678901234567890, []) ∧
    textWriteReadDouble 123456 = 123456 :=
  primitive_round_trip_amended 12345678901234567890 (by norm_num) 123456 (by norm_num)

/-! ## C6: negative string length prefix is used unchecked -/

/-- C6 counterexample: a binary stream whose 4-byte length prefix decodes
to the int -1 makes the string reader call resize/read with the converted
size_t 2^64 - 1; the outcome is a downstream over-demand on the stream,
not an archive-raised decoding fault. -/
theorem negative_length_counterexample :
    binReadString [255, 255, 255, 255] = .error (.streamShort (2 ^ 64 - 1)) ∧
    isDecodingFault (binReadString [255, 255, 255, 255]) = false := by
  constructor
  · rfl
  · rfl

/-- C6 amended: a negative decoded string length is not detected by the
archive: it is converted to `size_t` (adding 2^64) and passed on as the
resize/read size, so the failure - if any - surfaces as a stream-level
over-demand of that converted size, never as an archive decoding fault. -/
theorem negative_length_no_decoding_fault (bs : List Nat) (len : Int)
    (rest : List Nat)
    (hdec : decodeInt4 bs = some (len, rest)) (hneg : len < 0)
    (hshort : rest.length < (len % (2 ^ 64 : Int)).toNat) :
    binReadString bs = .error (.streamShort ((len % (2 ^ 64 : Int)).toNat)) ∧
    isDecodingFault (binReadString bs) = false := by
  have h0 : ¬ len = 0 := by omega
  have hres : binReadString bs
      = .error (.streamShort ((len % (2 ^ 64 : Int)).toNat)) := by
    simp only [binReadString, hdec]
    rw [if_neg h0, if_pos hshort]
  exact ⟨hres, by rw [hres]; rfl⟩

theorem negative_length_no_decoding_fault_witness :
    binReadString [254, 255, 255, 255] = .error (.streamShort ((-2 % (2 ^ 64 : Int)).toNat)) ∧
    isDecodingFault (binReadString [254, 255, 255, 255]) = false :=
  negative_length_no_decoding_fault [254, 255, 255, 255] (-2) [] (by decide)
    (by decide) (by decide)

/-! ## C7: associative map round trip -/

lemma mapInsert_append_big (dst : List (Int × Int)) (k v : Int)
    (h : ∀ p ∈ dst, p.1 < k) : mapInsert dst k v = dst ++ [(k, v)] := by
  induction dst with
  | nil => rfl
  | cons a t ih =>
    have ha := h a (List.mem_cons_self _ _)
    rw [show a = (a.1, a.2) from rfl, mapInsert,
        if_neg (by omega), if_neg (by omega)]
    rw [ih (fun p hp => h p (List.mem_cons_of_mem _ hp))]
    rfl

lemma mapReadPairs_of_write (m : List (Int × Int)) (rest : List Tok) :
    ∀ dst, m.Pairwise (fun p q => p.1 < q.1) →
      (∀ p ∈ dst, ∀ q ∈ m, p.1 < q.1) →
      mapReadPairs dst m.length
          ((m.map (fun p => [Tok.int p.1, Tok.int p.2])).flatten ++ rest)
        = some (dst ++ m, rest) := by
  induction m with
  | nil => intro dst _ _; simp [mapReadPairs]
  | cons a t ih =>
    intro dst hs hd
    obtain ⟨a1, a2⟩ := a
    rw [List.length_cons, List.map_cons, List.flatten_cons]
    simp only [List.cons_append, List.nil_append, List.append_assoc]
    rw [mapReadPairs]
    rw [mapInsert_append_big dst a1 a2
        (fun p hp => hd p hp (a1, a2) (List.mem_cons_self _ _))]
    have hd2 : ∀ p ∈ dst ++ [(a1, a2)], ∀ q ∈ t, p.1 < q.1 := by
      intro p hp q hq
      rcases List.mem_append.mp hp with hp | hp
      · exact hd p hp q (List.mem_cons_of_mem _ hq)
      · have hpa : p = (a1, a2) := by simpa using hp
        subst hpa
        exact (List.pairwise_cons.mp hs).1 q hq
    rw [ih (dst ++ [(a1, a2)]) (List.Pairwise.of_cons hs) hd2, ← List.append_cons]

lemma mapInsert_overwrite (dst : List (Int × Int)) (k v₀ v : Int) :
    mapInsert (mapInsert dst k v₀) k v = mapInsert dst k v := by
  induction dst with
  | nil =>
    simp only [mapInsert]
    split_ifs <;>
      first
        | rfl
        | (exfalso; omega)
  | cons a t ih =>
    obtain ⟨a1, a2⟩ := a
    simp only [mapInsert]
    split_ifs <;> (try simp only [mapInsert]) <;> (try split_ifs) <;>
      first
        | rfl
        | (exfalso; omega)
        | (rw [ih])

lemma mapInsert_comm (dst : List (Int × Int)) (k₁ v₁ k₂ v₂ : Int) (h : k₁ ≠ k₂) :
    mapInsert (mapInsert dst k₁ v₁) k₂ v₂ = mapInsert (mapInsert dst k₂ v₂) k₁ v₁ := by
  induction dst with
  | nil =>
    simp only [mapInsert]
    split_ifs <;> (try simp only [mapInsert]) <;> (try split_ifs) <;>
      first
        | rfl
        | (exfalso; omega)
  | cons a t ih =>
    obtain ⟨a1, a2⟩ := a
    simp only [mapInsert]
    split_ifs <;> (try simp only [mapInsert]) <;> (try split_ifs) <;>
      first
        | rfl
        | (exfalso; omega)
        | (rw [ih])

lemma mapBuild_cons (dst : List (Int × Int)) (p : Int × Int) (l : List (Int × Int)) :
    mapBuild dst (p :: l) = mapBuild (mapInsert dst p.1 p.2) l := rfl

lemma mapBuild_perm (l l' : List (Int × Int)) (hp : l.Perm l') :
    (l.map Prod.fst).Nodup → ∀ dst, mapBuild dst l = mapBuild dst l' := by
  induction hp with
  | nil => intro _ dst; rfl
  | cons x p ih =>
    intro hn dst
    rw [mapBuild_cons, mapBuild_cons]
    refine ih ?_ _
    simp only [List.map_cons, List.nodup_cons] at hn
    exact hn.2
  | swap x y t =>
    intro hn dst
    rw [mapBuild_cons, mapBuild_cons, mapBuild_cons, mapBuild_cons]
    have hne : y.1 ≠ x.1 := by
      simp only [List.map_cons, List.nodup_cons, List.mem_cons] at hn
      exact fun he => hn.1 (Or.inl he)
    rw [mapInsert_comm dst y.1 y.2 x.1 x.2 hne]
  | trans p₁ p₂ ih₁ ih₂ =>
    intro hn dst
    rw [ih₁ hn dst]
    exact ih₂ ((p₁.map Prod.fst).nodup hn) dst

/-- C7: writing a `std::map` (whose iteration order is strictly increasing
key order) emits the length and the pairs in iteration order; the mirror
read performs length-many key/value reads inserted with last-wins
overwrite, so reading into an empty destination restores the map exactly;
insertion into the map is last-wins; and building the map by insertions is
independent of the insertion order when the keys are distinct. -/
theorem map_round_trip (m : List (Int × Int))
    (hs : m.Pairwise (fun p q => p.1 < q.1)) :
    mapRead [] (mapWrite m []) = some (m, []) ∧
    (∀ dst k v₀ v, mapInsert (mapInsert dst k v₀) k v = mapInsert dst k v) ∧
    (∀ l l' : List (Int × Int), l.Perm l' → (l.map Prod.fst).Nodup →
        mapBuild [] l = mapBuild [] l') := by
  refine ⟨?_, mapInsert_overwrite, fun l l' hp hn => mapBuild_perm l l' hp hn []⟩
  rw [mapWrite]
  simp only [List.nil_append, List.cons_append, List.singleton_append]
  rw [mapRead]
  simpa using mapReadPairs_of_write m [] [] hs (by simp)

theorem map_round_trip_witness :
    mapRead [] (mapWrite [(1, 10), (2, 20)] []) = some ([(1, 10), (2, 20)], []) ∧
    mapInsert (mapInsert [] 5 7) 5 9 = mapInsert [] 5 9 ∧
    mapBuild [] [(2, 20), (1, 10)] = mapBuild [] [(1, 10), (2, 20)] :=
  ⟨(map_round_trip [(1, 10), (2, 20)] (by decide)).1,
   (map_round_trip [(1, 10), (2, 20)] (by decide)).2.1 [] 5 7 9,
   (map_round_trip [(1, 10), (2, 20)] (by decide)).2.2 [(2, 20), (1, 10)]
     [(1, 10), (2, 20)] (by decide) (by decide)⟩

/-! ## C1: shared-handle deduplication and read-side identity -/

/-- C1: archiving the same shared handle twice in one write session writes
the full object payload only at the first occurrence; the second (and, by
the generalized conjunct, every later) occurrence writes only the slot
number and the was-downcast flag, plus the dynamic type name exactly when
that flag is true; and in the mirroring read session the later occurrence
resolves to the very same reconstructed handle (handle equality with the
first), not an equal copy. -/
theorem shared_handle_dedup_identity (env : Env) (ty : String) (o : Obj)
    (hreg : ty ≠ o.dynType → o.dynType ∈ env.registry)
    (hcons : ty = o.dynType → env.constructible ty = true)
    (hlen : o.payload.length = env.payloadLen o.dynType)
    (hup : ∀ a, env.up o.dynType ty (env.down o.dynType ty a) = a) :
    ∃ (st1 st2 : WState) (needed : Bool) (h1 : SPtr) (r1 r2 : RState),
      writeSharedPtr env ty (some o) initW = .ok st1 ∧
      writeSharedPtr env ty (some o) st1 = .ok st2 ∧
      st1.out = [.int (-1), .bool needed]
          ++ (if ty = o.dynType then [.int (-1)] ++ o.payload
              else [.int (-3), .str o.dynType] ++ o.payload)
          ++ (if needed then [.str o.dynType] else []) ∧
      st2.out = st1.out ++ ([.int 0, .bool needed]
          ++ (if needed then [.str o.dynType] else [])) ∧
      (∀ (st : WState) (slot : Nat),
          lookupNr st.shared_ptr2nr
              (if ty = o.dynType then o.addr else env.down o.dynType ty o.addr)
            = some slot →
          writeSharedPtr env ty (some o) st
            = .ok (emit st ([.int (Int.ofNat slot), .bool needed]
                ++ if needed then [.str o.dynType] else []))) ∧
      readSharedPtr env ty (initR st2.out) = .ok (some h1, r1) ∧
      readSharedPtr env ty r1 = .ok (some h1, r2) := by
  by_cases hty : ty = o.dynType
  · subst hty
    refine ⟨⟨1, 1, [(o.addr, 0)], [(o.addr, 0)],
              [.int (-1), .bool false, .int (-1)] ++ o.payload⟩,
            ⟨1, 1, [(o.addr, 0)], [(o.addr, 0)],
              ([.int (-1), .bool false, .int (-1)] ++ o.payload)
                ++ [.int 0, .bool false]⟩,
            false, ⟨0, 0⟩,
            ⟨[.int 0, .bool false], [some ⟨0, 0⟩], [0], 1⟩,
            ⟨[], [some ⟨0, 0⟩], [0], 1⟩,
            ?_, ?_, ?_, ?_, ?_, ?_, ?_⟩
    · simp [writeSharedPtr, writeSharedFound, writePtr, writePtrFound,
            lookupNr, emit, initW, hcons rfl]
    · simp [writeSharedPtr, writeSharedFound, writePtr, writePtrFound,
            lookupNr, emit, initW, hcons rfl]
    · simp
    · simp
    · intro st slot hfound
      simp at hfound
      simp [writeSharedPtr, writeSharedFound, hfound, emit]
    · simp only [initR, readSharedPtr, readTokInt, readTokBool, readTokStr,
        readPtr, dropToks, List.cons_append, List.nil_append, List.append_assoc]
      norm_num
      rw [← hlen]
      simp [hcons rfl, List.drop_left]
    · simp [readSharedPtr, readTokInt, readTokBool, readTokStr]
  · have hrg := hreg hty
    have hty2 : o.dynType ≠ ty := Ne.symm hty
    by_cases hdc : env.down o.dynType ty o.addr = o.addr
    · refine ⟨⟨1, 1, [(o.addr, 0)], [(o.addr, 0)],
                [.int (-1), .bool false, .int (-3), .str o.dynType] ++ o.payload⟩,
              ⟨1, 1, [(o.addr, 0)], [(o.addr, 0)],
                ([.int (-1), .bool false, .int (-3), .str o.dynType] ++ o.payload)
                  ++ [.int 0, .bool false]⟩,
              false, ⟨0, 0⟩,
              ⟨[.int 0, .bool false], [some ⟨0, 0⟩], [env.down o.dynType ty 0], 1⟩,
              ⟨[], [some ⟨0, 0⟩], [env.down o.dynType ty 0], 1⟩,
              ?_, ?_, ?_, ?_, ?_, ?_, ?_⟩
      · simp [writeSharedPtr, writeSharedFound, writePtr, writePtrFound,
              lookupNr, emit, initW, hty, hty2, hrg, hdc]
      · simp [writeSharedPtr, writeSharedFound, writePtr, writePtrFound,
              lookupNr, emit, initW, hty, hty2, hrg, hdc]
      · simp [hty]
      · simp
      · intro st slot hfound
        rw [if_neg hty, hdc] at hfound
        simp [writeSharedPtr, writeSharedFound, hty, hty2, hrg, hdc, hfound, emit]
      · simp only [initR, readSharedPtr, readTokInt, readTokBool, readTokStr,
          readPtr, dropToks, List.cons_append, List.nil_append, List.append_assoc]
        norm_num
        rw [← hlen]
        simp [hrg, List.drop_left]
      · simp [readSharedPtr, readTokInt, readTokBool, readTokStr]
    · have hne : (env.down o.dynType ty o.addr == o.addr) = false := by
        simpa using hdc
      refine ⟨⟨1, 1, [(env.down o.dynType ty o.addr, 0)],
                [(env.down o.dynType ty o.addr, 0)],
                [.int (-1), .bool true, .int (-3), .str o.dynType] ++ o.payload
                  ++ [.str o.dynType]⟩,
              ⟨1, 1, [(env.down o.dynType ty o.addr, 0)],
                [(env.down o.dynType ty o.addr, 0)],
                ([.int (-1), .bool true, .int (-3), .str o.dynType] ++ o.payload
                  ++ [.str o.dynType]) ++ [.int 0, .bool true, .str o.dynType]⟩,
              true, ⟨0, 0⟩,
              ⟨[.int 0, .bool true, .str o.dynType],
                [some ⟨0, env.down o.dynType ty 0⟩], [env.down o.dynType ty 0], 1⟩,
              ⟨[], [some ⟨0, env.down o.dynType ty 0⟩], [env.down o.dynType ty 0], 1⟩,
              ?_, ?_, ?_, ?_, ?_, ?_, ?_⟩
      · simp [writeSharedPtr, writeSharedFound, writePtr, writePtrFound,
              lookupNr, emit, initW, hty, hty2, hrg, hne]
      · simp [writeSharedPtr, writeSharedFound, writePtr, writePtrFound,
              lookupNr, emit, initW, hty, hty2, hrg, hne]
      · simp [hty]
      · simp
      · intro st slot hfound
        rw [if_neg hty] at hfound
        simp [writeSharedPtr, writeSharedFound, hty, hty2, hrg, hne, hfound, emit]
      · simp only [initR, readSharedPtr, readTokInt, readTokBool, readTokStr,
          readPtr, dropToks, List.cons_append, List.nil_append, List.append_assoc]
        norm_num
        rw [← hlen]
        simp [hrg, List.drop_left]
      · simp [readSharedPtr, readTokInt, readTokBool, readTokStr, hrg, hup 0]

theorem shared_handle_dedup_identity_witness :
    ∃ (st1 st2 : WState) (needed : Bool) (h1 : SPtr) (r1 r2 : RState),
      writeSharedPtr envShift "B" (some ⟨7, "D", [.dat 42]⟩) initW = .ok st1 ∧
      writeSharedPtr envShift "B" (some ⟨7, "D", [.dat 42]⟩) st1 = .ok st2 ∧
      st1.out = [.int (-1), .bool needed]
          ++ (if "B" = (Obj.mk 7 "D" [.dat 42]).dynType then [.int (-1)] ++ [Tok.dat 42]
              else [.int (-3), .str "D"] ++ [Tok.dat 42])
          ++ (if needed then [.str "D"] else []) ∧
      st2.out = st1.out ++ ([.int 0, .bool needed]
          ++ (if needed then [.str "D"] else [])) ∧
      (∀ (st : WState) (slot : Nat),
          lookupNr st.shared_ptr2nr
              (if "B" = (Obj.mk 7 "D" [.dat 42]).dynType then 7
                else envShift.down "D" "B" 7)
            = some slot →
          writeSharedPtr envShift "B" (some ⟨7, "D", [.dat 42]⟩) st
            = .ok (emit st ([.int (Int.ofNat slot), .bool needed]
                ++ if needed then [.str "D"] else []))) ∧
      readSharedPtr envShift "B" (initR st2.out) = .ok (some h1, r1) ∧
      readSharedPtr envShift "B" r1 = .ok (some h1, r2) :=
  shared_handle_dedup_identity envShift "B" ⟨7, "D", [.dat 42]⟩
    (fun _ => by decide) (fun hh => absurd hh (by decide)) rfl
    (fun a => by simp [envShift])

end NgArchive
